import Mathlib

/-!
# Portfolio scene script (`src/main.js`): embedding and properties

The script sets up a three.js scene, registers `mousemove`, `scroll` and
`resize` listeners on `window`, wires the page chrome in `setupUI`, and
drives one `tick` per animation frame.

Conventions of the embedding:

* JavaScript numbers are read as exact rationals (`ℚ`); floating-point
  rounding is not modelled.  A division by a zero viewport dimension, where
  JavaScript yields `Infinity` or `NaN`, takes Lean's value `x / 0 = 0`.
* Module-level mutable objects (`camera`, `renderer`, `particlesMesh`,
  `skillsGroup`, `skillObjects`, `mouseX`, `mouseY`) are the fields of one
  explicit state record `App`; every handler is a function on that record.
* A handler that dereferences `null` returns `Except.error JSError.typeError`.
* `gsap` and `IntersectionObserver` are not part of the repository; what the
  script needs of them is modelled from the specification and marked so.
-/

namespace Portfolio

/-! ## Data model -/

/-- Three numeric components of a three.js `Vector3` / `Euler`. -/
structure Vec3 where
  x : ℚ
  y : ℚ
  z : ℚ
  deriving DecidableEq

/-- The four entries of `geoms`, in source order. -/
inductive Geometry where
  | icosahedron
  | octahedron
  | tetrahedron
  | box
  deriving DecidableEq

/-- The `userData` record given to every skill mesh. -/
structure UserData where
  rotX : ℚ
  rotY : ℚ
  deriving DecidableEq

/-- One entry of `skillObjects`. -/
structure Mesh where
  geometry : Geometry
  position : Vec3
  rotation : Vec3
  userData : UserData
  deriving DecidableEq

/-- The object `skillsGroup`: visibility flag, position and rotation. -/
structure Group where
  visible : Bool
  position : Vec3
  rotation : Vec3
  deriving DecidableEq

/-- The property a `gsap.to` call animates: `skillsGroup.position.z` or
`skillsGroup.rotation.y` (the script tweens nothing else). -/
inductive TweenProp where
  | position_z
  | rotation_y
  deriving DecidableEq

/-- The `ease` option of a tween; `default` when the option is not given. -/
inductive Ease where
  | default
  | power2_out
  deriving DecidableEq

/-- The arguments of one `gsap.to` call: animated property, target value,
duration, ease, and whether an `onComplete` that clears
`skillsGroup.visible` is attached. -/
structure Tween where
  prop : TweenProp
  target : ℚ
  duration : ℚ
  ease : Ease
  hideOnComplete : Bool
  deriving DecidableEq

/-- The fields of `camera` the script sets; `projectionAspect` is the aspect
last baked into the projection matrix by `updateProjectionMatrix`. -/
structure Camera where
  fov : ℚ
  aspect : ℚ
  near : ℚ
  far : ℚ
  position_z : ℚ
  projectionAspect : ℚ
  deriving DecidableEq

/-- The fields of `renderer` the script sets, with a count of `render` calls. -/
structure Renderer where
  width : ℚ
  height : ℚ
  pixelRatio : ℚ
  renderCalls : ℕ
  deriving DecidableEq

/-- The module-level state of the script. `positionTween` and `rotationTween`
are the tween currently animating each property; `started` logs every
`gsap.to` call in order. -/
structure App where
  camera : Camera
  renderer : Renderer
  particlesRotation : Vec3
  skillsGroup : Group
  skillObjects : List Mesh
  mouseX : ℚ
  mouseY : ℚ
  positionTween : Option Tween
  rotationTween : Option Tween
  started : List Tween
  deriving DecidableEq

/-- The part of `getBoundingClientRect()` the scroll handler reads. -/
structure DOMRect where
  top : ℚ
  bottom : ℚ
  deriving DecidableEq

/-- Errors a handler can raise. -/
inductive JSError where
  | typeError
  deriving DecidableEq

/-- The value of `Math.PI`: the double nearest to π, an exact rational. -/
def Math_PI : ℚ := 884279719003555 / 281474976710656

/-! ## Scene setup -/

/-- The entry `geoms[i % geoms.length]`. -/
def geoms (i : ℕ) : Geometry :=
  match i % 4 with
  | 0 => Geometry.icosahedron
  | 1 => Geometry.octahedron
  | 2 => Geometry.tetrahedron
  | _ => Geometry.box

/-- The mesh built by iteration `i` of the loop over the six skill objects;
`random k` is the value of the `k`-th `Math.random()` call of that loop. -/
def mkSkillObject (random : ℕ → ℚ) (i : ℕ) : Mesh :=
  { geometry := geoms i
    position := ⟨(random (5 * i) - 0.5) * 10, (random (5 * i + 1) - 0.5) * 10,
                 (random (5 * i + 2) - 0.5) * 5⟩
    rotation := ⟨0, 0, 0⟩
    userData := ⟨(random (5 * i + 3) - 0.5) * 0.02, (random (5 * i + 4) - 0.5) * 0.02⟩ }

/-- The state after the module's top-level statements, before the first
`tick`: camera and renderer sized to the viewport, six skill objects, the
group parked at `z = -20` and not visible, pointer at the origin, no tween.
Particle positions are not part of the state (nothing reads them again). -/
def initialApp (innerWidth innerHeight devicePixelRatio : ℚ) (random : ℕ → ℚ) : App :=
  { camera := ⟨75, innerWidth / innerHeight, 0.1, 1000, 20, innerWidth / innerHeight⟩
    renderer := ⟨innerWidth, innerHeight, min devicePixelRatio 2, 0⟩
    particlesRotation := ⟨0, 0, 0⟩
    skillsGroup := ⟨false, ⟨0, 0, -20⟩, ⟨0, 0, 0⟩⟩
    skillObjects := (List.range 6).map (mkSkillObject random)
    mouseX := 0
    mouseY := 0
    positionTween := none
    rotationTween := none
    started := [] }

/-! ## Tween scheduler -/

/-- Modelled from the spec: `gsap.to`, of the external library gsap. The call
is logged and the new tween becomes the one animating its property; a tween
already animating that property is superseded (last-write-wins). -/
def gsap_to (tw : Tween) (s : App) : App :=
  match tw.prop with
  | TweenProp.position_z => { s with positionTween := some tw, started := s.started ++ [tw] }
  | TweenProp.rotation_y => { s with rotationTween := some tw, started := s.started ++ [tw] }

/-- Modelled from the spec: a progress step of the tween scheduler. If a tween
animates property `p`, the property is written with the interpolated value
`v` (any value: the easing curve is not constrained); otherwise nothing
happens. -/
def tweenUpdate (p : TweenProp) (v : ℚ) (s : App) : App :=
  match p with
  | TweenProp.position_z =>
    match s.positionTween with
    | none => s
    | some _ =>
      { s with skillsGroup := { s.skillsGroup with
                                position := { s.skillsGroup.position with z := v } } }
  | TweenProp.rotation_y =>
    match s.rotationTween with
    | none => s
    | some _ =>
      { s with skillsGroup := { s.skillsGroup with
                                rotation := { s.skillsGroup.rotation with y := v } } }

/-- Runs the `onComplete` callback of a tween, when it has one:
`() => { skillsGroup.visible = false; }`. -/
def onComplete (tw : Tween) (s : App) : App :=
  if tw.hideOnComplete then
    { s with skillsGroup := { s.skillsGroup with visible := false } }
  else s

/-- Modelled from the spec: completion of the tween animating property `p`.
The property takes the tween's target value, the tween is retired, and its
`onComplete` callback runs. Nothing happens when no tween animates `p`. -/
def tweenComplete (p : TweenProp) (s : App) : App :=
  match p with
  | TweenProp.position_z =>
    match s.positionTween with
    | none => s
    | some tw =>
      onComplete tw
        { s with skillsGroup := { s.skillsGroup with
                                  position := { s.skillsGroup.position with z := tw.target } }
                 positionTween := none }
  | TweenProp.rotation_y =>
    match s.rotationTween with
    | none => s
    | some tw =>
      onComplete tw
        { s with skillsGroup := { s.skillsGroup with
                                  rotation := { s.skillsGroup.rotation with y := tw.target } }
                 rotationTween := none }

/-! ## Window listeners -/

/-- The `mousemove` listener. -/
def onMouseMove (clientX clientY innerWidth innerHeight : ℚ) (s : App) : App :=
  { s with mouseX := clientX / innerWidth - 0.5
           mouseY := clientY / innerHeight - 0.5 }

/-- The test `rect.top < window.innerHeight && rect.bottom >= 0`. -/
def isVisible (rect : DOMRect) (innerHeight : ℚ) : Bool :=
  decide (rect.top < innerHeight) && decide (rect.bottom ≥ 0)

/-- The entry tween on `skillsGroup.position`: `z: 5, duration: 2, ease: "power2.out"`. -/
def flyIn : Tween := ⟨TweenProp.position_z, 5, 2, Ease.power2_out, false⟩

/-- The entry tween on `skillsGroup.rotation`: `y: Math.PI, duration: 2`. -/
def spinIn : Tween := ⟨TweenProp.rotation_y, Math_PI, 2, Ease.default, false⟩

/-- The exit tween on `skillsGroup.position`: `z: -20, duration: 1`, with the
`onComplete` that clears the visibility flag. -/
def flyOut : Tween := ⟨TweenProp.position_z, -20, 1, Ease.default, true⟩

/-- The `scroll` listener. `skillsSection` is the bounding rectangle of the
element `document.getElementById('skills')` at the time of the event, or
`none` when that lookup returned `null`, in which case the call
`skillsSection.getBoundingClientRect()` throws. -/
def onScroll (skillsSection : Option DOMRect) (innerHeight : ℚ) (s : App) :
    Except JSError App :=
  match skillsSection with
  | none => Except.error JSError.typeError
  | some rect =>
    if isVisible rect innerHeight then
      if !s.skillsGroup.visible then
        let s1 := { s with skillsGroup := { s.skillsGroup with visible := true } }
        let s2 := gsap_to flyIn s1
        Except.ok (gsap_to spinIn s2)
      else Except.ok s
    else
      if s.skillsGroup.visible && decide (s.skillsGroup.position.z > 0) then
        Except.ok (gsap_to flyOut s)
      else Except.ok s

/-- The `resize` listener: `camera.aspect`, `updateProjectionMatrix()`,
`renderer.setSize`. -/
def onResize (innerWidth innerHeight : ℚ) (s : App) : App :=
  let camera1 := { s.camera with aspect := innerWidth / innerHeight }
  let camera2 := { camera1 with projectionAspect := camera1.aspect }
  { s with camera := camera2
           renderer := { s.renderer with width := innerWidth, height := innerHeight } }

/-! ## Animation loop -/

/-- The body of the `forEach` over `skillObjects` in `tick`. -/
def spin (obj : Mesh) : Mesh :=
  let r1 := { obj.rotation with x := obj.rotation.x + obj.userData.rotX }
  { obj with rotation := { r1 with y := r1.y + obj.userData.rotY } }

/-- One call of `tick`, with `elapsedTime` the value of
`clock.getElapsedTime()`. The closing `requestAnimationFrame(tick)` is the
environment delivering the next frame. -/
def tick (elapsedTime : ℚ) (s : App) : App :=
  let p1 := { s.particlesRotation with y := elapsedTime * 0.05 }
  let p2 := { p1 with x := s.mouseY * 0.1 }
  let p3 := { p2 with y := p2.y + s.mouseX * 0.1 }
  let s1 := { s with particlesRotation := p3 }
  let s2 :=
    if s1.skillsGroup.visible then
      let g1 := { s1.skillsGroup.rotation with y := s1.skillsGroup.rotation.y + 0.005 }
      let objs := s1.skillObjects.map spin
      let g2 := { g1 with x := s1.mouseY * 0.5 }
      let g3 := { g2 with z := s1.mouseX * 0.5 }
      { s1 with skillsGroup := { s1.skillsGroup with rotation := g3 }, skillObjects := objs }
    else s1
  { s2 with renderer := { s2.renderer with renderCalls := s2.renderer.renderCalls + 1 } }

/-! ## Event loop -/

/-- What the event loop can deliver to the scene. -/
inductive Event where
  | mousemove (clientX clientY innerWidth innerHeight : ℚ)
  | scroll (skillsSection : Option DOMRect) (innerHeight : ℚ)
  | resize (innerWidth innerHeight : ℚ)
  | frame (elapsedTime : ℚ)
  | tweenUpdate (p : TweenProp) (v : ℚ)
  | tweenComplete (p : TweenProp)

/-- One turn of the event loop. A listener that throws leaves the state as it
was when it threw; the scroll listener throws before any assignment. -/
def step (s : App) : Event → App
  | Event.mousemove cx cy w h => onMouseMove cx cy w h s
  | Event.scroll sec h =>
    match onScroll sec h s with
    | Except.ok s1 => s1
    | Except.error _ => s
  | Event.resize w h => onResize w h s
  | Event.frame t => tick t s
  | Event.tweenUpdate p v => tweenUpdate p v s
  | Event.tweenComplete p => tweenComplete p s

/-- The state after a sequence of events. -/
def run (s : App) (evs : List Event) : App :=
  evs.foldl step s

/-! ## Page chrome (`setupUI`) -/

/-- A DOM element carrying the class `reveal`, named by a number. -/
abbrev Elem := ℕ

/-- The fields of an `IntersectionObserverEntry` the callback reads. -/
structure Entry where
  target : Elem
  isIntersecting : Bool
  deriving DecidableEq

/-- What the selectors of `setupUI` find in the document: whether
`.menu-toggle` and `.close-menu` exist, the class list of `.mobile-menu`
(`none` when `querySelector` returned `null`), the number of
`.mobile-nav-links a` elements, and the `.reveal` elements. -/
structure Page where
  menuToggle : Bool
  mobileMenu : Option (List String)
  closeMenu : Bool
  navLinks : ℕ
  revealElements : List Elem
  deriving DecidableEq

/-- The page-chrome state after `setupUI`: the class list of the menu panel,
the click listeners that were registered, the targets the observer still
watches, and the log of `classList.add('active')` calls on reveal elements. -/
structure UI where
  mobileMenu : Option (List String)
  toggleListener : Bool
  closeListener : Bool
  linkListeners : ℕ
  observed : List Elem
  activated : List Elem
  deriving DecidableEq

/-- The method `DOMTokenList.add`: the token is appended unless present. -/
def classList_add (classList : List String) (token : String) : List String :=
  if token ∈ classList then classList else classList ++ [token]

/-- The method `DOMTokenList.remove`. -/
def classList_remove (classList : List String) (token : String) : List String :=
  classList.filter (fun c => c ≠ token)

/-- Modelled from the spec: `IntersectionObserver.observe`; a target already
watched is not added again. -/
def observe (observed : List Elem) (el : Elem) : List Elem :=
  if el ∈ observed then observed else observed ++ [el]

/-- Modelled from the spec: `IntersectionObserver.unobserve`. -/
def unobserve (observed : List Elem) (el : Elem) : List Elem :=
  observed.filter (fun x => x ≠ el)

/-- The function `setupUI`. It dereferences none of the elements it looks up
except inside `if (menuToggle)`, `if (closeMenu)` and the `forEach` loops, so
it always returns. -/
def setupUI (p : Page) : Except JSError UI :=
  Except.ok
    { mobileMenu := p.mobileMenu
      toggleListener := p.menuToggle
      closeListener := p.closeMenu
      linkListeners := p.navLinks
      observed := p.revealElements.foldl observe []
      activated := [] }

/-- The click listener of `.menu-toggle`: `mobileMenu.classList.add('active')`. -/
def menuToggleClick (u : UI) : Except JSError UI :=
  match u.mobileMenu with
  | none => Except.error JSError.typeError
  | some classList => Except.ok { u with mobileMenu := some (classList_add classList "active") }

/-- The click listener of `.close-menu`: `mobileMenu.classList.remove('active')`. -/
def closeMenuClick (u : UI) : Except JSError UI :=
  match u.mobileMenu with
  | none => Except.error JSError.typeError
  | some classList =>
    Except.ok { u with mobileMenu := some (classList_remove classList "active") }

/-- The click listener of each `.mobile-nav-links a`. -/
def navLinkClick (u : UI) : Except JSError UI :=
  match u.mobileMenu with
  | none => Except.error JSError.typeError
  | some classList =>
    Except.ok { u with mobileMenu := some (classList_remove classList "active") }

/-- The body of `entries.forEach` in the observer callback. -/
def revealEntry (u : UI) (entry : Entry) : UI :=
  if entry.isIntersecting then
    { u with activated := u.activated ++ [entry.target]
             observed := unobserve u.observed entry.target }
  else u

/-- The `IntersectionObserver` callback of `setupUI`. -/
def revealCallback (entries : List Entry) (u : UI) : UI :=
  entries.foldl revealEntry u

/-- Modelled from the spec: one delivery by the browser. Of the threshold
crossings that happened since the last delivery, the callback receives those
whose target the observer watches at that moment. -/
def deliver (u : UI) (crossings : List Entry) : UI :=
  revealCallback (crossings.filter (fun c => decide (c.target ∈ u.observed))) u

/-- The page-chrome state after a sequence of deliveries. -/
def deliverAll (u : UI) (batches : List (List Entry)) : UI :=
  batches.foldl deliver u

/-- The number of times `el` had the class `active` added. -/
def activations (u : UI) (el : Elem) : ℕ :=
  u.activated.count el

/-! ## Sample inputs -/

/-- A sample stream of `Math.random()` values in `[0, 1)`. -/
def sampleRandom (k : ℕ) : ℚ := ((k % 10 : ℕ) : ℚ) / 10

/-- The state after loading the script in a 1024 by 768 viewport. -/
def sampleApp : App := initialApp 1024 768 1 sampleRandom

/-- The state `s` after the entry branch of the scroll listener. -/
def entered (s : App) : App :=
  { s with skillsGroup := { s.skillsGroup with visible := true }
           positionTween := some ⟨TweenProp.position_z, 5, 2, Ease.power2_out, false⟩
           rotationTween := some ⟨TweenProp.rotation_y, Math_PI, 2, Ease.default, false⟩
           started := s.started ++ [⟨TweenProp.position_z, 5, 2, Ease.power2_out, false⟩,
                                    ⟨TweenProp.rotation_y, Math_PI, 2, Ease.default, false⟩] }

/-- A scroll event for every listed rectangle and viewport height, in order. -/
def scrolls (evs : List (DOMRect × ℚ)) : List Event :=
  evs.map (fun e => Event.scroll (some e.1) e.2)

/-- The invariant behind the parked-when-hidden property: a hidden group sits
at `z = -20` with no tween on its position, a position tween that hides on
completion ends at `z = -20`, and no rotation tween hides on completion. -/
def Inv (s : App) : Prop :=
  (s.skillsGroup.visible = false →
      s.skillsGroup.position.z = -20 ∧ s.positionTween = none) ∧
  (∀ tw : Tween, s.positionTween = some tw → tw.hideOnComplete = true → tw.target = -20) ∧
  (∀ tw : Tween, s.rotationTween = some tw → tw.hideOnComplete = false)

/-- A visit to the skills section and back: the section scrolls into view,
both entry tweens run to completion, one frame is drawn, the section scrolls
out of view and the exit tween runs to completion. -/
def visitTrace : List Event :=
  [Event.scroll (some ⟨767, 1500⟩) 768,
   Event.tweenUpdate TweenProp.position_z 3,
   Event.tweenComplete TweenProp.position_z,
   Event.tweenComplete TweenProp.rotation_y,
   Event.frame 4,
   Event.scroll (some ⟨-900, -100⟩) 768,
   Event.tweenUpdate TweenProp.position_z (-7),
   Event.tweenComplete TweenProp.position_z]

/-- A page with a menu toggle, a close control and two navigation links but
no `.mobile-menu` panel. -/
def pageWithoutPanel : Page := ⟨true, none, true, 2, []⟩

/-- A page with three reveal elements and a complete mobile menu. -/
def samplePage : Page := ⟨true, some ["mobile-menu"], true, 2, [1, 2, 3]⟩

/-- Threshold crossings in which element 1 enters and leaves the viewport
three times, element 2 only ever reports leaving, and element 7 is not a
reveal element. -/
def sampleCrossings : List (List Entry) :=
  [[⟨1, false⟩, ⟨2, false⟩], [⟨1, true⟩, ⟨7, true⟩], [⟨1, false⟩], [⟨1, true⟩, ⟨2, false⟩],
   [⟨1, false⟩], [⟨1, true⟩]]

/-! ## Scroll listener -/

theorem onScroll_hidden_visible (s : App) (rect : DOMRect) (h : ℚ)
    (hv : s.skillsGroup.visible = false) (hvis : isVisible rect h = true) :
    onScroll (some rect) h s = Except.ok (entered s) := by
  simp [onScroll, hv, hvis, gsap_to, flyIn, spinIn, entered]

theorem onScroll_shown_visible (s : App) (rect : DOMRect) (h : ℚ)
    (hv : s.skillsGroup.visible = true) (hvis : isVisible rect h = true) :
    onScroll (some rect) h s = Except.ok s := by
  simp [onScroll, hv, hvis]

theorem onScroll_parked_hidden (s : App) (rect : DOMRect) (h : ℚ)
    (hp : s.skillsGroup.visible = false ∨ s.skillsGroup.position.z ≤ 0)
    (hvis : isVisible rect h = false) :
    onScroll (some rect) h s = Except.ok s := by
  rcases hp with hp | hp
  · simp [onScroll, hp, hvis]
  · simp [onScroll, hvis, not_lt.mpr hp]

theorem isVisible_iff (rect : DOMRect) (h : ℚ) :
    isVisible rect h = true ↔ rect.top < h ∧ rect.bottom ≥ 0 := by
  simp [isVisible]

theorem run_scrolls_shown (evs : List (DOMRect × ℚ)) :
    ∀ s : App, s.skillsGroup.visible = true →
      (∀ e ∈ evs, isVisible e.1 e.2 = true) → run s (scrolls evs) = s := by
  induction evs with
  | nil => intro s _ _; rfl
  | cons e rest ih =>
    intro s hv hall
    have h1 : isVisible e.1 e.2 = true := hall e (List.mem_cons_self _ _)
    have h2 : step s (Event.scroll (some e.1) e.2) = s := by
      simp [step, onScroll_shown_visible s e.1 e.2 hv h1]
    have h3 : run s (scrolls (e :: rest)) = run (step s (Event.scroll (some e.1) e.2)) (scrolls rest) := by
      simp [run, scrolls]
    rw [h3, h2]
    exact ih s hv (fun x hx => hall x (List.mem_cons_of_mem _ hx))

/-- C1. Entry idempotence of the scroll listener: when `skillsGroup.visible`
is already true, a scroll event whose `isVisible` is true returns the state
unchanged (flag, position, rotation, active tweens and the log of started
tweens). Hence any non-empty run of consecutive visible scroll events from a
hidden state ends in the state reached after the first one: exactly one
entry pair, fly-in then spin-in, was appended to the log. -/
theorem scroll_entry_idempotent :
    (∀ (s : App) (rect : DOMRect) (h : ℚ), s.skillsGroup.visible = true →
        isVisible rect h = true → onScroll (some rect) h s = Except.ok s) ∧
    (∀ (s : App) (evs : List (DOMRect × ℚ)), s.skillsGroup.visible = false →
        evs ≠ [] → (∀ e ∈ evs, isVisible e.1 e.2 = true) →
        run s (scrolls evs) = entered s ∧
        (run s (scrolls evs)).started =
          s.started ++ [⟨TweenProp.position_z, 5, 2, Ease.power2_out, false⟩,
                        ⟨TweenProp.rotation_y, Math_PI, 2, Ease.default, false⟩]) := by
  refine ⟨onScroll_shown_visible, ?_⟩
  intro s evs hv hne hall
  cases evs with
  | nil => exact absurd rfl hne
  | cons e rest =>
    have h1 : isVisible e.1 e.2 = true := hall e (List.mem_cons_self _ _)
    have h2 : step s (Event.scroll (some e.1) e.2) = entered s := by
      simp [step, onScroll_hidden_visible s e.1 e.2 hv h1]
    have h3 : run s (scrolls (e :: rest)) = run (step s (Event.scroll (some e.1) e.2)) (scrolls rest) := by
      simp [run, scrolls]
    have h4 : run s (scrolls (e :: rest)) = entered s := by
      rw [h3, h2]
      exact run_scrolls_shown rest (entered s) rfl (fun x hx => hall x (List.mem_cons_of_mem _ hx))
    exact ⟨h4, by rw [h4]; rfl⟩

/-- C2. The scroll listener starts no exit tween when the group is hidden or
parked: with `skillsGroup.visible = false` or `skillsGroup.position.z ≤ 0`, a
scroll event whose `isVisible` is false returns the state unchanged. -/
theorem scroll_exit_noop (s : App) (rect : DOMRect) (h : ℚ)
    (hp : s.skillsGroup.visible = false ∨ s.skillsGroup.position.z ≤ 0)
    (hvis : isVisible rect h = false) :
    onScroll (some rect) h s = Except.ok s :=
  onScroll_parked_hidden s rect h hp hvis

/-- C3. From a hidden state the scroll listener returns, and it sets the flag
and starts the entry pair (position.z to 5 over 2 with ease power2.out,
rotation.y tween over 2) exactly when `rect.top < innerHeight` and
`rect.bottom ≥ 0`; otherwise the state is returned unchanged. -/
theorem scroll_from_hidden (s : App) (rect : DOMRect) (innerHeight : ℚ)
    (hv : s.skillsGroup.visible = false) :
    ∃ s1 : App, onScroll (some rect) innerHeight s = Except.ok s1 ∧
      ((rect.top < innerHeight ∧ rect.bottom ≥ 0) → s1 = entered s) ∧
      (¬ (rect.top < innerHeight ∧ rect.bottom ≥ 0) → s1 = s) ∧
      (s1.skillsGroup.visible = true ↔ (rect.top < innerHeight ∧ rect.bottom ≥ 0)) ∧
      (s1.positionTween = some ⟨TweenProp.position_z, 5, 2, Ease.power2_out, false⟩ ∧
        s1.started = s.started ++ [⟨TweenProp.position_z, 5, 2, Ease.power2_out, false⟩,
                                    ⟨TweenProp.rotation_y, Math_PI, 2, Ease.default, false⟩]
        ↔ (rect.top < innerHeight ∧ rect.bottom ≥ 0)) ∧
      (s1.started = s.started ↔ ¬ (rect.top < innerHeight ∧ rect.bottom ≥ 0)) := by
  by_cases hc : rect.top < innerHeight ∧ rect.bottom ≥ 0
  · have hvis : isVisible rect innerHeight = true := (isVisible_iff rect innerHeight).mpr hc
    refine ⟨entered s, onScroll_hidden_visible s rect innerHeight hv hvis, fun _ => rfl,
      fun hn => absurd hc hn, ?_, ?_, ?_⟩
    · simp [entered, hc]
    · simp [entered, hc]
    · simp [entered, hc]
  · have hvis : isVisible rect innerHeight = false := by
      rw [← Bool.not_eq_true, isVisible_iff]; exact hc
    refine ⟨s, onScroll_parked_hidden s rect innerHeight (Or.inl hv) hvis,
      fun h1 => absurd h1 hc, fun _ => rfl, ?_, ?_, ?_⟩
    · simp [hv, hc]
    · constructor
      · rintro ⟨-, h2⟩
        have := congrArg List.length h2
        simp at this
      · intro h1; exact absurd h1 hc
    · simp [hc]

/-! ## Parked when hidden -/

theorem tick_group (t : ℚ) (s : App) :
    (tick t s).skillsGroup.visible = s.skillsGroup.visible ∧
    (tick t s).skillsGroup.position = s.skillsGroup.position ∧
    (tick t s).positionTween = s.positionTween ∧
    (tick t s).rotationTween = s.rotationTween ∧
    (tick t s).started = s.started := by
  unfold tick
  by_cases hv : s.skillsGroup.visible = true <;> simp [hv]

theorem Inv_initialApp (w h dpr : ℚ) (random : ℕ → ℚ) : Inv (initialApp w h dpr random) := by
  simp [Inv, initialApp]

theorem Inv_step (s : App) (ev : Event) (hs : Inv s) : Inv (step s ev) := by
  obtain ⟨h1, h2, h3⟩ := hs
  cases ev with
  | mousemove cx cy w h => exact ⟨h1, h2, h3⟩
  | resize w h => exact ⟨h1, h2, h3⟩
  | frame t =>
    obtain ⟨e1, e2, e3, e4, -⟩ := tick_group t s
    refine ⟨?_, ?_, ?_⟩
    · intro hv
      simp only [step] at hv ⊢
      rw [e1] at hv
      rw [e2, e3]
      exact h1 hv
    · intro tw htw
      simp only [step] at htw
      rw [e3] at htw
      exact h2 tw htw
    · intro tw htw
      simp only [step] at htw
      rw [e4] at htw
      exact h3 tw htw
  | scroll sec h =>
    cases sec with
    | none => simpa [step, onScroll] using ⟨h1, h2, h3⟩
    | some rect =>
      by_cases hvis : isVisible rect h = true
      · by_cases hv : s.skillsGroup.visible = true
        · simpa [step, onScroll, hvis, hv] using ⟨h1, h2, h3⟩
        · simp only [Bool.not_eq_true] at hv
          simp [step, onScroll, hvis, hv, gsap_to, flyIn, spinIn, Inv]
      · simp only [Bool.not_eq_true] at hvis
        by_cases hc : (s.skillsGroup.visible && decide (s.skillsGroup.position.z > 0)) = true
        · have hv : s.skillsGroup.visible = true := by
            simp only [Bool.and_eq_true] at hc; exact hc.1
          simp only [step, onScroll, hvis, hc, gsap_to, flyOut, Inv]
          simp [hv]
          exact h3
        · simp only [Bool.not_eq_true] at hc
          simp only [step, onScroll, hvis, hc]
          exact ⟨h1, h2, h3⟩
  | tweenUpdate p v =>
    cases p with
    | position_z =>
      cases hp : s.positionTween with
      | none => simpa [step, tweenUpdate, hp] using ⟨h1, h2, h3⟩
      | some tw =>
        refine ⟨?_, ?_, ?_⟩
        · intro hv
          simp [step, tweenUpdate, hp] at hv
          have := (h1 hv).2
          rw [hp] at this
          exact absurd this (by simp)
        · intro tw1 htw
          simp [step, tweenUpdate, hp] at htw
          exact h2 tw1 (by rw [hp, htw])
        · intro tw1 htw
          simp [step, tweenUpdate, hp] at htw
          exact h3 tw1 htw
    | rotation_y =>
      cases hp : s.rotationTween with
      | none => simpa [step, tweenUpdate, hp] using ⟨h1, h2, h3⟩
      | some tw =>
        refine ⟨?_, ?_, ?_⟩
        · intro hv
          simp [step, tweenUpdate, hp] at hv ⊢
          exact h1 hv
        · intro tw1 htw
          simp [step, tweenUpdate, hp] at htw
          exact h2 tw1 htw
        · intro tw1 htw
          simp [step, tweenUpdate, hp] at htw
          exact h3 tw1 (by rw [hp, htw])
  | tweenComplete p =>
    cases p with
    | position_z =>
      cases hp : s.positionTween with
      | none => simpa [step, tweenComplete, hp] using ⟨h1, h2, h3⟩
      | some tw =>
        by_cases hh : tw.hideOnComplete = true
        · have ht := h2 tw hp hh
          simp [step, tweenComplete, hp, onComplete, hh, Inv, ht]
          exact h3
        · simp only [Bool.not_eq_true] at hh
          refine ⟨?_, ?_, ?_⟩
          · intro hv
            simp [step, tweenComplete, hp, onComplete, hh] at hv
            have := (h1 hv).2
            rw [hp] at this
            exact absurd this (by simp)
          · intro tw1 htw
            simp [step, tweenComplete, hp, onComplete, hh] at htw
          · intro tw1 htw
            simp [step, tweenComplete, hp, onComplete, hh] at htw
            exact h3 tw1 htw
    | rotation_y =>
      cases hp : s.rotationTween with
      | none => simpa [step, tweenComplete, hp] using ⟨h1, h2, h3⟩
      | some tw =>
        have hh : tw.hideOnComplete = false := h3 tw hp
        refine ⟨?_, ?_, ?_⟩
        · intro hv
          simp [step, tweenComplete, hp, onComplete, hh] at hv ⊢
          exact h1 hv
        · intro tw1 htw
          simp [step, tweenComplete, hp, onComplete, hh] at htw
          exact h2 tw1 htw
        · intro tw1 htw
          simp [step, tweenComplete, hp, onComplete, hh] at htw

theorem Inv_run (evs : List Event) : ∀ s : App, Inv s → Inv (run s evs) := by
  induction evs with
  | nil => intro s hs; exact hs
  | cons ev rest ih =>
    intro s hs
    have : run s (ev :: rest) = run (step s ev) rest := rfl
    rw [this]
    exact ih (step s ev) (Inv_step s ev hs)

theorem step_clears_flag (s : App) (ev : Event) (hs : Inv s)
    (hv : s.skillsGroup.visible = true) (hv1 : (step s ev).skillsGroup.visible = false) :
    ev = Event.tweenComplete TweenProp.position_z := by
  obtain ⟨-, -, h3⟩ := hs
  cases ev with
  | mousemove cx cy w h => simp [step, onMouseMove, hv] at hv1
  | resize w h => simp [step, onResize, hv] at hv1
  | frame t =>
    have := (tick_group t s).1
    simp only [step] at hv1
    rw [this, hv] at hv1
    exact absurd hv1 (by simp)
  | scroll sec h =>
    cases sec with
    | none => simp [step, onScroll, hv] at hv1
    | some rect =>
      by_cases hvis : isVisible rect h = true
      · simp [step, onScroll, hvis, hv] at hv1
      · simp only [Bool.not_eq_true] at hvis
        by_cases hc : (s.skillsGroup.visible && decide (s.skillsGroup.position.z > 0)) = true
        · simp only [step, onScroll, hvis, hc, gsap_to, flyOut] at hv1
          simp [hv] at hv1
        · simp only [Bool.not_eq_true] at hc
          simp only [step, onScroll, hvis, hc] at hv1
          simp [hv] at hv1
  | tweenUpdate p v =>
    cases p with
    | position_z =>
      cases hp : s.positionTween <;> simp [step, tweenUpdate, hp, hv] at hv1
    | rotation_y =>
      cases hp : s.rotationTween <;> simp [step, tweenUpdate, hp, hv] at hv1
  | tweenComplete p =>
    cases p with
    | position_z => rfl
    | rotation_y =>
      cases hp : s.rotationTween with
      | none => simp [step, tweenComplete, hp, hv] at hv1
      | some tw =>
        have hh : tw.hideOnComplete = false := h3 tw hp
        simp [step, tweenComplete, hp, onComplete, hh, hv] at hv1

/-- C4. Parked-when-hidden invariant: in every state reached from the initial
state by any sequence of events (pointer moves, scrolls, resizes, frames,
tween progress steps and tween completions, a new tween superseding the one
on the same property), a cleared visibility flag comes with
`position.z = -20`; and the only event that clears the flag is the
completion of the position tween, after which `position.z = -20`. -/
theorem parked_when_hidden (w h dpr : ℚ) (random : ℕ → ℚ) (evs : List Event) :
    ((run (initialApp w h dpr random) evs).skillsGroup.visible = false →
      (run (initialApp w h dpr random) evs).skillsGroup.position.z = -20) ∧
    (∀ ev : Event, (run (initialApp w h dpr random) evs).skillsGroup.visible = true →
      (step (run (initialApp w h dpr random) evs) ev).skillsGroup.visible = false →
      ev = Event.tweenComplete TweenProp.position_z ∧
      (step (run (initialApp w h dpr random) evs) ev).skillsGroup.position.z = -20) := by
  have hinv := Inv_run evs (initialApp w h dpr random) (Inv_initialApp w h dpr random)
  refine ⟨fun hv => (hinv.1 hv).1, ?_⟩
  intro ev hv hv1
  refine ⟨step_clears_flag _ ev hinv hv hv1, ?_⟩
  exact ((Inv_step _ ev hinv).1 hv1).1

/-! ## Scroll reveal -/

theorem revealCallback_spec (entries : List Entry) :
    ∀ u : UI,
      (revealCallback entries u).activated =
          u.activated ++ (entries.filter (fun c => c.isIntersecting)).map Entry.target ∧
      (∀ el : Elem, el ∈ (revealCallback entries u).observed ↔
          el ∈ u.observed ∧ el ∉ (entries.filter (fun c => c.isIntersecting)).map Entry.target) := by
  induction entries with
  | nil => intro u; simp [revealCallback]
  | cons c rest ih =>
    intro u
    have hstep : revealCallback (c :: rest) u = revealCallback rest (revealEntry u c) := rfl
    obtain ⟨ih1, ih2⟩ := ih (revealEntry u c)
    rw [hstep]
    by_cases hc : c.isIntersecting = true
    · refine ⟨?_, ?_⟩
      · rw [ih1]; simp [revealEntry, hc]
      · intro el
        rw [ih2]
        simp only [revealEntry, hc, if_true, unobserve, List.mem_filter, List.filter_cons,
          List.map_cons, List.mem_cons, decide_eq_true_eq]
        tauto
    · simp only [Bool.not_eq_true] at hc
      refine ⟨?_, ?_⟩
      · rw [ih1]; simp [revealEntry, hc]
      · intro el
        rw [ih2]
        simp [revealEntry, hc]

theorem mem_intersecting (b : List Entry) (p : Entry → Bool) (el : Elem) :
    el ∈ ((b.filter p).filter (fun c => c.isIntersecting)).map Entry.target ↔
      (⟨el, true⟩ : Entry) ∈ b ∧ p ⟨el, true⟩ = true := by
  simp only [List.mem_map, List.mem_filter]
  constructor
  · rintro ⟨c, ⟨⟨hc1, hc2⟩, hc3⟩, hc4⟩
    have : c = ⟨el, true⟩ := by
      cases c with
      | mk tg it => simp only at hc3 hc4; subst hc3; subst hc4; rfl
    subst this
    exact ⟨hc1, hc2⟩
  · rintro ⟨h1, h2⟩
    exact ⟨⟨el, true⟩, ⟨⟨h1, h2⟩, rfl⟩, rfl⟩

theorem deliver_spec (u : UI) (b : List Entry)
    (hb : ((b.filter (fun c => c.isIntersecting)).map Entry.target).Nodup) (el : Elem) :
    (el ∈ (deliver u b).observed ↔ el ∈ u.observed ∧ (⟨el, true⟩ : Entry) ∉ b) ∧
    (deliver u b).activated.count el =
      u.activated.count el +
        (if el ∈ u.observed ∧ (⟨el, true⟩ : Entry) ∈ b then 1 else 0) := by
  obtain ⟨h1, h2⟩ := revealCallback_spec (b.filter (fun c => decide (c.target ∈ u.observed))) u
  have hmem := mem_intersecting b (fun c => decide (c.target ∈ u.observed)) el
  simp only [decide_eq_true_eq] at hmem
  have hnd : (((b.filter (fun c => decide (c.target ∈ u.observed))).filter
      (fun c => c.isIntersecting)).map Entry.target).Nodup :=
    List.Nodup.sublist
      (List.Sublist.map Entry.target
        (List.Sublist.filter (fun c : Entry => c.isIntersecting) (List.filter_sublist _))) hb
  refine ⟨?_, ?_⟩
  · unfold deliver
    rw [h2 el, hmem]
    tauto
  · unfold deliver
    rw [h1, List.count_append]
    congr 1
    by_cases hc : el ∈ u.observed ∧ (⟨el, true⟩ : Entry) ∈ b
    · rw [if_pos hc]
      exact List.count_eq_one_of_mem hnd (hmem.mpr ⟨hc.2, hc.1⟩)
    · rw [if_neg hc]
      exact List.count_eq_zero_of_not_mem (fun hin => hc ⟨(hmem.mp hin).2, (hmem.mp hin).1⟩)

theorem deliverAll_spec (batches : List (List Entry)) :
    ∀ u : UI,
      (∀ b ∈ batches, ((b.filter (fun c => c.isIntersecting)).map Entry.target).Nodup) →
      ∀ el : Elem,
      (el ∈ (deliverAll u batches).observed ↔
        el ∈ u.observed ∧ ¬ ∃ b ∈ batches, (⟨el, true⟩ : Entry) ∈ b) ∧
      (deliverAll u batches).activated.count el =
        u.activated.count el +
          (if el ∈ u.observed ∧ ∃ b ∈ batches, (⟨el, true⟩ : Entry) ∈ b then 1 else 0) := by
  induction batches with
  | nil => intro u _ el; simp [deliverAll]
  | cons b rest ih =>
    intro u hb el
    have hstep : deliverAll u (b :: rest) = deliverAll (deliver u b) rest := rfl
    obtain ⟨d1, d2⟩ := deliver_spec u b (hb b (List.mem_cons_self _ _)) el
    obtain ⟨i1, i2⟩ := ih (deliver u b) (fun x hx => hb x (List.mem_cons_of_mem _ hx)) el
    rw [hstep]
    refine ⟨?_, ?_⟩
    · rw [i1, d1]
      simp only [List.mem_cons, exists_eq_or_imp, not_or]
      tauto
    · rw [i2, d2]
      by_cases ho : el ∈ u.observed
      · by_cases hin : (⟨el, true⟩ : Entry) ∈ b
        · have hno : el ∉ (deliver u b).observed := fun hx => (d1.mp hx).2 hin
          simp [ho, hin, hno]
        · have hyes : el ∈ (deliver u b).observed := d1.mpr ⟨ho, hin⟩
          simp [ho, hin, hyes]
      · have hno : el ∉ (deliver u b).observed := fun hx => ho (d1.mp hx).1
        simp [ho, hno]

theorem mem_foldl_observe (els : List Elem) :
    ∀ (acc : List Elem) (el : Elem), el ∈ els.foldl observe acc ↔ el ∈ acc ∨ el ∈ els := by
  induction els with
  | nil => intro acc el; simp
  | cons x rest ih =>
    intro acc el
    simp only [List.foldl_cons, ih, List.mem_cons]
    by_cases hx : x ∈ acc
    · simp only [observe, hx, if_true]
      constructor
      · rintro (h | h)
        · exact Or.inl h
        · exact Or.inr (Or.inr h)
      · rintro (h | h | h)
        · exact Or.inl h
        · exact Or.inl (h ▸ hx)
        · exact Or.inr h
    · simp only [observe, hx, if_false, List.mem_append, List.mem_singleton]
      tauto

theorem deliver_observed (u : UI) (b : List Entry) (el : Elem) :
    el ∈ (deliver u b).observed ↔ el ∈ u.observed ∧ (⟨el, true⟩ : Entry) ∉ b := by
  have h2 := (revealCallback_spec (b.filter (fun c => decide (c.target ∈ u.observed))) u).2 el
  have hmem := mem_intersecting b (fun c => decide (c.target ∈ u.observed)) el
  simp only [decide_eq_true_eq] at hmem
  unfold deliver
  rw [h2, hmem]
  tauto

theorem deliver_mem_activated (u : UI) (b : List Entry) (el : Elem) :
    el ∈ (deliver u b).activated ↔
      el ∈ u.activated ∨ (el ∈ u.observed ∧ (⟨el, true⟩ : Entry) ∈ b) := by
  have h1 := (revealCallback_spec (b.filter (fun c => decide (c.target ∈ u.observed))) u).1
  have hmem := mem_intersecting b (fun c => decide (c.target ∈ u.observed)) el
  simp only [decide_eq_true_eq] at hmem
  unfold deliver
  rw [h1, List.mem_append, hmem]
  tauto

theorem deliverAll_mem (batches : List (List Entry)) :
    ∀ (u : UI) (el : Elem),
      (el ∈ (deliverAll u batches).observed ↔
        el ∈ u.observed ∧ ¬ ∃ b ∈ batches, (⟨el, true⟩ : Entry) ∈ b) ∧
      (el ∈ (deliverAll u batches).activated ↔
        el ∈ u.activated ∨ (el ∈ u.observed ∧ ∃ b ∈ batches, (⟨el, true⟩ : Entry) ∈ b)) := by
  induction batches with
  | nil => intro u el; simp [deliverAll]
  | cons b rest ih =>
    intro u el
    have hstep : deliverAll u (b :: rest) = deliverAll (deliver u b) rest := rfl
    obtain ⟨i1, i2⟩ := ih (deliver u b) el
    have d1 := deliver_observed u b el
    have d2 := deliver_mem_activated u b el
    rw [hstep]
    refine ⟨?_, ?_⟩
    · rw [i1, d1]
      simp only [List.mem_cons, exists_eq_or_imp, not_or]
      tauto
    · rw [i2, d1, d2]
      simp only [List.mem_cons, exists_eq_or_imp]
      by_cases hO : el ∈ u.observed <;> by_cases hB : (⟨el, true⟩ : Entry) ∈ b <;>
        simp [hO, hB]

/-- C5, refuted as stated. One delivery that reports element 1 entering,
leaving and entering again runs `classList.add` on it twice: the second
intersecting entry is already in the batch when the first one unobserves
the element. -/
theorem reveal_twice_in_one_delivery :
    ∃ u : UI, setupUI samplePage = Except.ok u ∧
      activations (deliverAll u [[⟨1, true⟩, ⟨1, false⟩, ⟨1, true⟩]]) 1 = 2 ∧
      (deliverAll u [[⟨1, true⟩, ⟨1, false⟩, ⟨1, true⟩]]).activated = [1, 1] ∧
      (deliverAll u [[⟨1, true⟩, ⟨1, false⟩, ⟨1, true⟩]]).observed = [2, 3] :=
  ⟨_, rfl, by decide, by decide, by decide⟩

/-- C5, as the code has it. After `setupUI`, for every list of reveal elements
and every sequence of deliveries: an element has `active` added at least once
exactly when it is a reveal element that some delivery reports as
intersecting; it is still observed at the end exactly when it is a reveal
element never reported as intersecting; and when no single delivery reports
the same target as intersecting twice, it has `active` added exactly once in
the first case and never otherwise. -/
theorem reveal_exactly_once (p : Page) (batches : List (List Entry)) (el : Elem) :
    ∃ u : UI, setupUI p = Except.ok u ∧
      (0 < activations (deliverAll u batches) el ↔
        (el ∈ p.revealElements ∧ ∃ b ∈ batches, (⟨el, true⟩ : Entry) ∈ b)) ∧
      (el ∈ (deliverAll u batches).observed ↔
        (el ∈ p.revealElements ∧ ¬ ∃ b ∈ batches, (⟨el, true⟩ : Entry) ∈ b)) ∧
      ((∀ b ∈ batches, ((b.filter (fun c => c.isIntersecting)).map Entry.target).Nodup) →
        activations (deliverAll u batches) el =
          (if el ∈ p.revealElements ∧ ∃ b ∈ batches, (⟨el, true⟩ : Entry) ∈ b
            then 1 else 0)) := by
  have hm := mem_foldl_observe p.revealElements [] el
  simp only [List.not_mem_nil, false_or] at hm
  obtain ⟨g1, g2⟩ := deliverAll_mem batches
    { mobileMenu := p.mobileMenu, toggleListener := p.menuToggle, closeListener := p.closeMenu,
      linkListeners := p.navLinks, observed := p.revealElements.foldl observe [],
      activated := [] } el
  refine ⟨_, rfl, ?_, ?_, ?_⟩
  · simp only [activations]
    rw [List.count_pos_iff, g2]
    simp [hm]
  · rw [g1]
    simp [hm]
  · intro hb
    have h := (deliverAll_spec batches
      { mobileMenu := p.mobileMenu, toggleListener := p.menuToggle, closeListener := p.closeMenu,
        linkListeners := p.navLinks, observed := p.revealElements.foldl observe [],
        activated := [] } hb el).2
    simp only [activations]
    rw [h]
    simp [hm]

/-! ## Frame update -/

theorem ne_add_pos (y : ℚ) : y + 0.005 ≠ y := by
  intro h
  have : (0.005 : ℚ) = 0 := by linarith
  norm_num at this

/-- C6. Frame-update gating: one `tick` changes the skills group or its shapes
exactly when `skillsGroup.visible` is true. When true, the group's
`rotation.y` grows by 0.005, `rotation.x` and `rotation.z` are set to
`0.5 * mouseY` and `0.5 * mouseX`, and every shape's `rotation.x` and
`rotation.y` grow by its own `userData.rotX` and `userData.rotY`; flag and
position stay. When false, group and shapes are unchanged. -/
theorem tick_gating (t : ℚ) (s : App) :
    (s.skillsGroup.visible = true →
      (tick t s).skillsGroup.rotation.y = s.skillsGroup.rotation.y + 0.005 ∧
      (tick t s).skillsGroup.rotation.x = 0.5 * s.mouseY ∧
      (tick t s).skillsGroup.rotation.z = 0.5 * s.mouseX ∧
      (tick t s).skillsGroup.visible = true ∧
      (tick t s).skillsGroup.position = s.skillsGroup.position ∧
      (tick t s).skillObjects = s.skillObjects.map (fun obj =>
        { obj with rotation := ⟨obj.rotation.x + obj.userData.rotX,
                                obj.rotation.y + obj.userData.rotY, obj.rotation.z⟩ })) ∧
    (s.skillsGroup.visible = false →
      (tick t s).skillsGroup = s.skillsGroup ∧ (tick t s).skillObjects = s.skillObjects) ∧
    (((tick t s).skillsGroup, (tick t s).skillObjects) ≠ (s.skillsGroup, s.skillObjects) ↔
      s.skillsGroup.visible = true) := by
  have hT : s.skillsGroup.visible = true →
      (tick t s).skillsGroup.rotation.y = s.skillsGroup.rotation.y + 0.005 := by
    intro hv; simp [tick, hv]
  have hF : s.skillsGroup.visible = false →
      (tick t s).skillsGroup = s.skillsGroup ∧ (tick t s).skillObjects = s.skillObjects := by
    intro hv; simp [tick, hv]
  refine ⟨?_, hF, ?_⟩
  · intro hv
    refine ⟨hT hv, ?_, ?_, ?_, ?_, ?_⟩
    · simp [tick, hv, mul_comm]
    · simp [tick, hv, mul_comm]
    · simp [tick, hv]
    · simp [tick, hv]
    · simp only [tick, hv, if_true]
      apply List.map_congr_left
      intro obj _
      rfl
  · constructor
    · intro hne
      by_contra hv
      simp only [Bool.not_eq_true] at hv
      obtain ⟨h1, h2⟩ := hF hv
      exact hne (by rw [h1, h2])
    · intro hv hEq
      have h1 : (tick t s).skillsGroup = s.skillsGroup := congrArg Prod.fst hEq
      have h2 := hT hv
      rw [h1] at h2
      exact ne_add_pos _ h2.symm

theorem onMouseMove_range (clientX clientY innerWidth innerHeight : ℚ) (s : App)
    (hw : 0 < innerWidth) (hh : 0 < innerHeight)
    (hx : 0 ≤ clientX ∧ clientX ≤ innerWidth) (hy : 0 ≤ clientY ∧ clientY ≤ innerHeight) :
    (-0.5 ≤ (onMouseMove clientX clientY innerWidth innerHeight s).mouseX ∧
      (onMouseMove clientX clientY innerWidth innerHeight s).mouseX ≤ 0.5) ∧
    (-0.5 ≤ (onMouseMove clientX clientY innerWidth innerHeight s).mouseY ∧
      (onMouseMove clientX clientY innerWidth innerHeight s).mouseY ≤ 0.5) := by
  have h1 : 0 ≤ clientX / innerWidth := div_nonneg hx.1 hw.le
  have h2 : clientX / innerWidth ≤ 1 := (div_le_one hw).mpr hx.2
  have h3 : 0 ≤ clientY / innerHeight := div_nonneg hy.1 hh.le
  have h4 : clientY / innerHeight ≤ 1 := (div_le_one hh).mpr hy.2
  simp only [onMouseMove]
  refine ⟨⟨?_, ?_⟩, ⟨?_, ?_⟩⟩ <;> norm_num <;> linarith

/-- C9. Particle rotation is linear and bounded in the pointer state: with
`mouseX` and `mouseY` in `[-0.5, 0.5]`, after one `tick` at elapsed time `t`
the particle rotation is `y = 0.05 * t + 0.1 * mouseX` and `x = 0.1 * mouseY`,
and the pointer contribution on each axis is at most 0.1 in absolute value. -/
theorem particle_rotation (t : ℚ) (s : App)
    (hx : -0.5 ≤ s.mouseX ∧ s.mouseX ≤ 0.5) (hy : -0.5 ≤ s.mouseY ∧ s.mouseY ≤ 0.5) :
    (tick t s).particlesRotation.y = 0.05 * t + 0.1 * s.mouseX ∧
    (tick t s).particlesRotation.x = 0.1 * s.mouseY ∧
    |(tick t s).particlesRotation.y - 0.05 * t| ≤ 0.1 ∧
    |(tick t s).particlesRotation.x| ≤ 0.1 := by
  have h1 : (tick t s).particlesRotation.y = 0.05 * t + 0.1 * s.mouseX := by
    unfold tick
    by_cases hv : s.skillsGroup.visible = true <;> simp [hv] <;> ring
  have h2 : (tick t s).particlesRotation.x = 0.1 * s.mouseY := by
    unfold tick
    by_cases hv : s.skillsGroup.visible = true <;> simp [hv] <;> ring
  obtain ⟨hx1, hx2⟩ := hx
  obtain ⟨hy1, hy2⟩ := hy
  norm_num at hx1 hx2 hy1 hy2
  refine ⟨h1, h2, ?_, ?_⟩
  · rw [h1, abs_le]
    constructor <;> norm_num <;> linarith
  · rw [h2, abs_le]
    constructor <;> norm_num <;> linarith

/-! ## Resize -/

/-- C10. Resize idempotence: running the resize listener twice with the same
viewport gives the state of running it once, with `camera.aspect` equal to
`innerWidth / innerHeight` and the renderer sized `innerWidth` by
`innerHeight`; pointer state, skills group, shapes, particle rotation and
tweens are untouched. -/
theorem resize_idempotent (innerWidth innerHeight : ℚ) (s : App) :
    onResize innerWidth innerHeight (onResize innerWidth innerHeight s) =
      onResize innerWidth innerHeight s ∧
    (onResize innerWidth innerHeight s).camera.aspect = innerWidth / innerHeight ∧
    (onResize innerWidth innerHeight s).camera.projectionAspect = innerWidth / innerHeight ∧
    (onResize innerWidth innerHeight s).renderer.width = innerWidth ∧
    (onResize innerWidth innerHeight s).renderer.height = innerHeight ∧
    (onResize innerWidth innerHeight s).mouseX = s.mouseX ∧
    (onResize innerWidth innerHeight s).mouseY = s.mouseY ∧
    (onResize innerWidth innerHeight s).skillsGroup = s.skillsGroup ∧
    (onResize innerWidth innerHeight s).skillObjects = s.skillObjects ∧
    (onResize innerWidth innerHeight s).particlesRotation = s.particlesRotation ∧
    (onResize innerWidth innerHeight s).positionTween = s.positionTween ∧
    (onResize innerWidth innerHeight s).rotationTween = s.rotationTween ∧
    (onResize innerWidth innerHeight s).started = s.started := by
  simp [onResize]

/-! ## Missing elements -/

theorem setupUI_returns (p : Page) : ∃ u : UI, setupUI p = Except.ok u :=
  ⟨_, rfl⟩

theorem menu_clicks_with_panel (u : UI) (classList : List String)
    (hm : u.mobileMenu = some classList) :
    (∃ u1 : UI, menuToggleClick u = Except.ok u1) ∧
    (∃ u1 : UI, closeMenuClick u = Except.ok u1) ∧
    (∃ u1 : UI, navLinkClick u = Except.ok u1) := by
  simp [menuToggleClick, closeMenuClick, navLinkClick, hm]

/-- C7. Missing elements are not all tolerated: on a page with a menu toggle, a close control
and navigation links but no menu panel, `setupUI` returns and registers the
three click listeners, and each of them throws a `TypeError` when it runs;
and the scroll listener throws a `TypeError` when the skills section is
absent. -/
theorem missing_element_throws :
    (∃ u : UI, setupUI pageWithoutPanel = Except.ok u ∧
      u.toggleListener = true ∧ u.closeListener = true ∧ u.linkListeners = 2 ∧
      menuToggleClick u = Except.error JSError.typeError ∧
      closeMenuClick u = Except.error JSError.typeError ∧
      navLinkClick u = Except.error JSError.typeError) ∧
    onScroll none 768 sampleApp = Except.error JSError.typeError :=
  ⟨⟨_, rfl, rfl, rfl, rfl, rfl, rfl, rfl⟩, rfl⟩

/-! ## Spin-in target -/

theorem Math_PI_pos : (0 : ℚ) < Math_PI := by
  norm_num [Math_PI]

/-- C8, refuted as stated. After one visit to the skills section the group is
hidden again with `rotation.y = Math.PI + 0.005`; the next visible scroll
event starts the rotation tween with target `Math.PI`, which is not
`rotation.y + Math.PI`. -/
theorem spin_target_not_relative :
    (run sampleApp visitTrace).skillsGroup.visible = false ∧
    (run sampleApp visitTrace).skillsGroup.rotation.y = Math_PI + 0.005 ∧
    (∃ s1 : App, onScroll (some ⟨767, 1500⟩) 768 (run sampleApp visitTrace) = Except.ok s1 ∧
      s1.rotationTween = some ⟨TweenProp.rotation_y, Math_PI, 2, Ease.default, false⟩ ∧
      s1.started.getLast? = some ⟨TweenProp.rotation_y, Math_PI, 2, Ease.default, false⟩) ∧
    Math_PI ≠ (run sampleApp visitTrace).skillsGroup.rotation.y + Math_PI := by
  have hv : (run sampleApp visitTrace).skillsGroup.visible = false := by rfl
  have hy : (run sampleApp visitTrace).skillsGroup.rotation.y = Math_PI + 0.005 := by
    norm_num [run, visitTrace, step, onScroll, isVisible, gsap_to, flyIn, spinIn, flyOut,
      tweenUpdate, tweenComplete, onComplete, tick, sampleApp, initialApp]
  refine ⟨hv, hy, ?_, ?_⟩
  · refine ⟨entered (run sampleApp visitTrace),
      onScroll_hidden_visible _ _ _ hv (by norm_num [isVisible]), rfl, ?_⟩
    simp [entered, List.getLast?_append]
  · rw [hy]
    have := Math_PI_pos
    intro h
    norm_num at h
    linarith

/-- C8, as the code has it. On every entry from a hidden state the scroll listener starts
the rotation tween with the absolute target `Math.PI` and duration 2,
whatever `rotation.y` is; that target is `rotation.y + Math.PI` exactly when
`rotation.y = 0`. -/
theorem spin_target_absolute (s : App) (rect : DOMRect) (h : ℚ)
    (hv : s.skillsGroup.visible = false) (hvis : isVisible rect h = true) :
    ∃ s1 : App, onScroll (some rect) h s = Except.ok s1 ∧
      s1.rotationTween = some ⟨TweenProp.rotation_y, Math_PI, 2, Ease.default, false⟩ ∧
      s1.started = s.started ++ [⟨TweenProp.position_z, 5, 2, Ease.power2_out, false⟩,
                                  ⟨TweenProp.rotation_y, Math_PI, 2, Ease.default, false⟩] ∧
      s1.skillsGroup.rotation = s.skillsGroup.rotation ∧
      (Math_PI = s.skillsGroup.rotation.y + Math_PI ↔ s.skillsGroup.rotation.y = 0) := by
  refine ⟨entered s, onScroll_hidden_visible s rect h hv hvis, rfl, rfl, rfl, ?_⟩
  constructor
  · intro h1; linarith
  · intro h1; rw [h1, zero_add]

/-! ## Instances at concrete inputs -/

theorem scroll_entry_idempotent_witness :
    onScroll (some ⟨100, 400⟩) 768 (entered sampleApp) = Except.ok (entered sampleApp) ∧
    run sampleApp (scrolls [(⟨767, 900⟩, 768), (⟨100, 400⟩, 768), (⟨-50, 10⟩, 768)]) =
      entered sampleApp :=
  ⟨scroll_entry_idempotent.1 (entered sampleApp) ⟨100, 400⟩ 768 rfl (by decide),
   (scroll_entry_idempotent.2 sampleApp
      [(⟨767, 900⟩, 768), (⟨100, 400⟩, 768), (⟨-50, 10⟩, 768)] rfl (by simp) (by decide)).1⟩

theorem scroll_exit_noop_witness :
    sampleApp.skillsGroup.position.z = -20 ∧
    onScroll (some ⟨900, 1500⟩) 768 sampleApp = Except.ok sampleApp :=
  ⟨by decide, scroll_exit_noop sampleApp ⟨900, 1500⟩ 768 (Or.inl rfl) (by decide)⟩

theorem scroll_from_hidden_witness :
    onScroll (some ⟨767, 1500⟩) 768 sampleApp = Except.ok (entered sampleApp) ∧
    onScroll (some ⟨768, 1500⟩) 768 sampleApp = Except.ok sampleApp := by
  obtain ⟨a, ha, ha1, -⟩ := scroll_from_hidden sampleApp ⟨767, 1500⟩ 768 rfl
  obtain ⟨b, hb, -, hb2, -⟩ := scroll_from_hidden sampleApp ⟨768, 1500⟩ 768 rfl
  refine ⟨?_, ?_⟩
  · rw [ha, ha1 (by norm_num)]
  · rw [hb, hb2 (by norm_num)]

theorem parked_when_hidden_witness :
    (run sampleApp visitTrace).skillsGroup.visible = false ∧
    (run sampleApp visitTrace).skillsGroup.position.z = -20 :=
  ⟨by rfl, (parked_when_hidden 1024 768 1 sampleRandom visitTrace).1 (by rfl)⟩

theorem reveal_exactly_once_witness :
    (∃ u : UI, setupUI samplePage = Except.ok u ∧
      activations (deliverAll u sampleCrossings) 1 = 1) ∧
    (∃ u : UI, setupUI samplePage = Except.ok u ∧
      activations (deliverAll u sampleCrossings) 2 = 0) := by
  obtain ⟨u, hu, -, -, h1⟩ := reveal_exactly_once samplePage sampleCrossings 1
  obtain ⟨v, hv, -, -, h2⟩ := reveal_exactly_once samplePage sampleCrossings 2
  refine ⟨⟨u, hu, ?_⟩, ⟨v, hv, ?_⟩⟩
  · rw [h1 (by decide)]; decide
  · rw [h2 (by decide)]; decide

theorem tick_gating_witness :
    (tick 4 (entered sampleApp)).skillsGroup.rotation.y = 0.005 ∧
    (tick 4 sampleApp).skillsGroup = sampleApp.skillsGroup := by
  refine ⟨?_, ((tick_gating 4 sampleApp).2.1 rfl).1⟩
  rw [((tick_gating 4 (entered sampleApp)).1 rfl).1]
  norm_num [entered, sampleApp, initialApp]

theorem spin_target_absolute_witness :
    ∃ s1 : App, onScroll (some ⟨767, 1500⟩) 768 sampleApp = Except.ok s1 ∧
      s1.rotationTween = some ⟨TweenProp.rotation_y, Math_PI, 2, Ease.default, false⟩ := by
  obtain ⟨s1, h1, h2, -⟩ := spin_target_absolute sampleApp ⟨767, 1500⟩ 768 rfl (by decide)
  exact ⟨s1, h1, h2⟩

theorem particle_rotation_witness :
    (tick 4 (onMouseMove 256 192 1024 768 sampleApp)).particlesRotation.y = 0.175 ∧
    (tick 4 (onMouseMove 256 192 1024 768 sampleApp)).particlesRotation.x = -0.025 := by
  obtain ⟨h1, h2, -⟩ := particle_rotation 4 (onMouseMove 256 192 1024 768 sampleApp)
    (by norm_num [onMouseMove]) (by norm_num [onMouseMove])
  refine ⟨?_, ?_⟩
  · rw [h1]; norm_num [onMouseMove]
  · rw [h2]; norm_num [onMouseMove]

end Portfolio
